import Mathlib

/-
  Shallow embedding of the yield-calculator and ex-dividend-alert core of
  src/app.py (MSTR preferred stock yield dashboard).

  Modelling conventions:
  * Prices, rates and dividend amounts are Rat (the source uses doubles; all
    relevant source arithmetic is exact on the inputs of interest).
  * Calendar dates are Int day numbers (days since 1970-01-01); the source
    parses YYYY-MM-DD strings and subtracts dates, obtaining the exact integer
    day difference, which subtraction on day numbers reproduces.
  * A price series is a List PricePoint ordered as the source DataFrame rows.
  * The pandas expression (annual_dividend / close) * 100 followed by
    .replace([inf, -inf], nan).dropna() is embedded via the PdVal type, which
    records the IEEE-754 outcome of a finite/zero division (finite, +inf,
    -inf or nan) so the replace/dropna step can be modelled faithfully.
  * Python dict lookups PREFERRED_STOCKS.get(symbol, {}) followed by the
    falsy test `if not dividend_info` are modelled as an Option lookup.
-/

inductive PaymentFreq where
  | monthly
  | quarterly
deriving DecidableEq, Repr

/-- Day number of a civil date (days since 1970-01-01), valid for CE years;
used only to give the hard-coded calendar strings of the source concrete
values. -/
def days_from_civil (y m d : Nat) : Int :=
  let y2 := if m ≤ 2 then y - 1 else y
  let era := y2 / 400
  let yoe := y2 % 400
  let mp := if m > 2 then m - 3 else m + 9
  let doy := (153 * mp + 2) / 5 + d - 1
  let doe := yoe * 365 + yoe / 4 - yoe / 100 + doy
  (era * 146097 + doe : Int) - 719468

/-- One per-ticker record of the PREFERRED_STOCKS table (src/app.py lines
130-167). -/
structure DividendInfo where
  name : String
  current_rate : Rat
  par : Rat
  payment_frequency : PaymentFreq
  last_ex_div : Int
  next_ex_div : Int
  quarterly_dividend : Rat
deriving DecidableEq, Repr

def strcEntry : DividendInfo :=
  { name := "MicroStrategy Inc. 9.00% Pfd Stock Series D"
    current_rate := 10
    par := 100
    payment_frequency := PaymentFreq.monthly
    last_ex_div := days_from_civil 2025 8 15
    next_ex_div := days_from_civil 2025 9 15
    quarterly_dividend := 2.5 }

def strdEntry : DividendInfo :=
  { name := "MicroStrategy Inc. 0.875% Pfd Stock Series C"
    current_rate := 10
    par := 100
    payment_frequency := PaymentFreq.quarterly
    last_ex_div := days_from_civil 2025 6 15
    next_ex_div := days_from_civil 2025 9 15
    quarterly_dividend := 2.5 }

def strfEntry : DividendInfo :=
  { name := "MicroStrategy Inc. 10.00% Pfd Stock Series B"
    current_rate := 10
    par := 100
    payment_frequency := PaymentFreq.quarterly
    last_ex_div := days_from_civil 2025 6 30
    next_ex_div := days_from_civil 2025 9 30
    quarterly_dividend := 2.5 }

def strkEntry : DividendInfo :=
  { name := "MicroStrategy Inc. 8.00% Pfd Stock Series A"
    current_rate := 8
    par := 100
    payment_frequency := PaymentFreq.quarterly
    last_ex_div := days_from_civil 2025 6 30
    next_ex_div := days_from_civil 2025 9 30
    quarterly_dividend := 2 }

/-- The static per-ticker reference table (src/app.py lines 130-167), in its
insertion order. -/
def PREFERRED_STOCKS : List (String × DividendInfo) :=
  [("STRC", strcEntry), ("STRD", strdEntry), ("STRF", strfEntry), ("STRK", strkEntry)]

def strc : String := "STRC"

/-- fetch_dividend_data_from_web (src/app.py lines 182-198): returns the
static table entry for the symbol; PREFERRED_STOCKS.get(symbol, {}) yields
the empty (falsy) dict for an absent symbol, modelled as none. -/
def fetch_dividend_data_from_web (symbol : String) : Option DividendInfo :=
  (PREFERRED_STOCKS.find? fun kv => kv.1 == symbol).map fun kv => kv.2

/-- One row of the source price DataFrame: (timestamp index, Close). -/
structure PricePoint where
  ts : Nat
  close : Rat
deriving DecidableEq, Repr

/-- The dict returned by calculate_yield_metrics (src/app.py lines 225-232). -/
structure YieldMetrics where
  current_price : Rat
  current_yield : Rat
  yield_to_par : Rat
  annual_dividend : Rat
  par_value : Rat
  dividend_info : DividendInfo
deriving DecidableEq, Repr

/-- The keys of the dict literal returned by calculate_yield_metrics
(src/app.py lines 225-232), verbatim and in source order. -/
def yieldMetricsFields : List String :=
  ["current_price", "current_yield", "yield_to_par", "annual_dividend", "par_value",
   "dividend_info"]

/-- calculate_yield_metrics (src/app.py lines 201-232): None on an empty
series or a falsy (absent) dividend record; otherwise the metrics dict, with
current_yield guarded to 0 when the last close is not strictly positive. -/
def calculate_yield_metrics (stock_data : List PricePoint) (symbol : String) :
    Option YieldMetrics :=
  stock_data.getLast?.bind fun lastP =>
    (fetch_dividend_data_from_web symbol).bind fun dividend_info =>
      let annual_dividend_rate := dividend_info.current_rate
      let par_value := dividend_info.par
      let annual_dividend := par_value * (annual_dividend_rate / 100)
      let current_yield :=
        if lastP.close > 0 then annual_dividend / lastP.close * 100 else 0
      some { current_price := lastP.close
             current_yield := current_yield
             yield_to_par := annual_dividend_rate
             annual_dividend := annual_dividend
             par_value := par_value
             dividend_info := dividend_info }

/-- The Premium/Discount expression of main_dashboard (src/app.py line 524):
(current_price / par_value - 1) * 100, computed by the caller from the
returned metrics record. -/
def premium_discount_pct (m : YieldMetrics) : Rat :=
  (m.current_price / m.par_value - 1) * 100

/-- Outcome class of an IEEE-754 double operation as numpy/pandas sees it:
a finite value, an infinity of either sign, or nan. -/
inductive PdVal where
  | finite (q : Rat)
  | posInf
  | negInf
  | nan
deriving DecidableEq, Repr

/-- IEEE-754 division of a finite numerator by a finite denominator:
finite quotient when the denominator is nonzero, otherwise a signed
infinity or nan (0/0). -/
def pdDiv (a b : Rat) : PdVal :=
  if b = 0 then
    if a > 0 then PdVal.posInf else if a < 0 then PdVal.negInf else PdVal.nan
  else PdVal.finite (a / b)

/-- Multiplication by the literal 100, preserving non-finite classes. -/
def pdMul100 : PdVal → PdVal
  | PdVal.finite q => PdVal.finite (q * 100)
  | PdVal.posInf => PdVal.posInf
  | PdVal.negInf => PdVal.negInf
  | PdVal.nan => PdVal.nan

/-- src/app.py line 249: yields = (annual_dividend / stock_data close) * 100,
one value per input row, infinities and nan still present. -/
def raw_yields (annual_dividend : Rat) (stock_data : List PricePoint) :
    List (Nat × PdVal) :=
  stock_data.map fun p => (p.ts, pdMul100 (pdDiv annual_dividend p.close))

/-- src/app.py line 250: .replace([inf, -inf], nan).dropna() — replacing both
infinities by nan and then dropping nan keeps exactly the finite entries. -/
def replace_inf_dropna (l : List (Nat × PdVal)) : List (Nat × Rat) :=
  l.filterMap fun tv =>
    match tv.2 with
    | PdVal.finite q => some (tv.1, q)
    | _ => none

/-- calculate_historical_yields (src/app.py lines 235-252). -/
def calculate_historical_yields (stock_data : List PricePoint) (symbol : String) :
    List (Nat × Rat) :=
  if stock_data.isEmpty then []
  else
    match fetch_dividend_data_from_web symbol with
    | none => []
    | some dividend_info =>
      let annual_dividend := dividend_info.par * (dividend_info.current_rate / 100)
      replace_inf_dropna (raw_yields annual_dividend stock_data)

/-- One element of the alerts list built by check_upcoming_ex_div_dates
(src/app.py lines 265-270). -/
structure AlertInfo where
  symbol : String
  ex_div_date : Int
  days_until : Int
  dividend : Rat
deriving DecidableEq, Repr

/-- The loop body of check_upcoming_ex_div_dates (src/app.py lines 255-272),
parameterised by today and the table it iterates (the source iterates the
global PREFERRED_STOCKS in insertion order and reads today from the clock). -/
def check_upcoming_ex_div_dates_over (today : Int)
    (stocks : List (String × DividendInfo)) : List AlertInfo :=
  stocks.filterMap fun si =>
    let days_until := si.2.next_ex_div - today
    if 0 ≤ days_until ∧ days_until ≤ 7 then
      some { symbol := si.1
             ex_div_date := si.2.next_ex_div
             days_until := days_until
             dividend := si.2.quarterly_dividend }
    else none

/-- check_upcoming_ex_div_dates (src/app.py lines 255-272) over the actual
hard-coded table. -/
def check_upcoming_ex_div_dates (today : Int) : List AlertInfo :=
  check_upcoming_ex_div_dates_over today PREFERRED_STOCKS

def strcM25 : YieldMetrics :=
  { current_price := 25
    current_yield := 40
    yield_to_par := 10
    annual_dividend := 10
    par_value := 100
    dividend_info := strcEntry }

def zzzz : String := "ZZZZ"

def symA : String := "AAA"

def symB : String := "BBB"

def demoEntry (n : Int) : DividendInfo :=
  { strcEntry with next_ex_div := n }

def c3demo : List PricePoint := [⟨0, 25⟩, ⟨1, 0⟩, ⟨2, 50⟩]

def keepFinite (t : Nat) (v : PdVal) (l : List (Nat × Rat)) : List (Nat × Rat) :=
  match v with
  | PdVal.finite q => (t, q) :: l
  | _ => l

theorem replace_inf_dropna_cons (t : Nat) (v : PdVal) (l : List (Nat × PdVal)) :
    replace_inf_dropna ((t, v) :: l) = keepFinite t v (replace_inf_dropna l) := by
  cases v <;> rfl

theorem keepFinite_div_zero (t : Nat) (a : Rat) (l : List (Nat × Rat)) :
    keepFinite t (pdMul100 (pdDiv a 0)) l = l := by
  rcases lt_trichotomy a 0 with h | h | h
  · rw [show pdDiv a 0 = PdVal.negInf from by simp [pdDiv, h, asymm h]]
    rfl
  · rw [show pdDiv a 0 = PdVal.nan from by simp [pdDiv, h]]
    rfl
  · rw [show pdDiv a 0 = PdVal.posInf from by simp [pdDiv, h]]
    rfl

theorem replace_raw_eq (d : Rat) (s : List PricePoint) :
    replace_inf_dropna (raw_yields d s)
      = (s.filter fun p => decide (p.close ≠ 0)).map fun p => (p.ts, d / p.close * 100) := by
  induction s with
  | nil => rfl
  | cons p s ih =>
    have hraw : raw_yields d (p :: s) = (p.ts, pdMul100 (pdDiv d p.close)) :: raw_yields d s := rfl
    rw [hraw, replace_inf_dropna_cons, ih, List.filter_cons]
    by_cases hp : p.close = 0
    · have hdec : decide (p.close ≠ 0) = false := by simp [hp]
      rw [hdec, if_neg (by simp), hp, keepFinite_div_zero]
    · have hdec : decide (p.close ≠ 0) = true := by simp [hp]
      rw [hdec, if_pos rfl,
        show pdDiv d p.close = PdVal.finite (d / p.close) from by simp only [pdDiv, if_neg hp]]
      rfl

theorem filter_zero_length (s : List PricePoint) :
    (s.filter fun p => decide (p.close ≠ 0)).length
      = s.length - (s.filter fun p => decide (p.close = 0)).length := by
  induction s with
  | nil => rfl
  | cons p s ih =>
    have hle := List.length_filter_le (fun p => decide (p.close = 0)) s
    rw [List.filter_cons, List.filter_cons]
    by_cases hp : p.close = 0
    · have h1 : decide (p.close ≠ 0) = false := by simp [hp]
      have h2 : decide (p.close = 0) = true := by simp [hp]
      rw [h1, h2, if_neg (by simp), if_pos rfl]
      simp only [List.length_cons]
      omega
    · have h1 : decide (p.close ≠ 0) = true := by simp [hp]
      have h2 : decide (p.close = 0) = false := by simp [hp]
      rw [h1, h2, if_pos rfl, if_neg (by simp)]
      simp only [List.length_cons]
      omega

theorem filterMap_map_sublist {α β γ : Type} (f : α → Option β) (g : β → γ) (h : α → γ)
    (hfg : ∀ a b, f a = some b → g b = h a) (l : List α) :
    ((l.filterMap f).map g).Sublist (l.map h) := by
  induction l with
  | nil => simp
  | cons a l ih =>
    cases hfa : f a with
    | none =>
      simp only [List.filterMap_cons, hfa, List.map_cons]
      exact ih.cons _
    | some b =>
      simp only [List.filterMap_cons, hfa, List.map_cons]
      rw [hfg a b hfa]
      exact ih.cons₂ _

theorem hist_eq_filter_map (series : List PricePoint) (symbol : String)
    (info : DividendInfo) (hinfo : fetch_dividend_data_from_web symbol = some info) :
    calculate_historical_yields series symbol
      = (series.filter fun p => decide (p.close ≠ 0)).map
          (fun p => (p.ts, info.par * (info.current_rate / 100) / p.close * 100)) := by
  unfold calculate_historical_yields
  rw [hinfo]
  cases series with
  | nil => rfl
  | cons p s =>
    rw [if_neg (by simp)]
    exact replace_raw_eq _ _

/-- Claim C1: for a non-empty series and a symbol present in the table, the returned
current_yield is annual dividend over last close times 100 when the last close
is positive, and 0 otherwise; concretely rate 10, par 100, price 25 gives
annual dividend 10 and yield 40. -/
theorem C1_current_yield_formula (series : List PricePoint) (p : PricePoint)
    (symbol : String) (info : DividendInfo) (m : YieldMetrics)
    (hlast : series.getLast? = some p)
    (hinfo : fetch_dividend_data_from_web symbol = some info)
    (hm : calculate_yield_metrics series symbol = some m) :
    m.current_price = p.close
      ∧ m.annual_dividend = info.par * (info.current_rate / 100)
      ∧ (p.close > 0 →
          m.current_yield = info.par * (info.current_rate / 100) / p.close * 100)
      ∧ (p.close ≤ 0 → m.current_yield = 0)
      ∧ (calculate_yield_metrics [⟨0, 25⟩] strc).map
          (fun mm => (mm.annual_dividend, mm.current_yield)) = some (10, 40) := by
  unfold calculate_yield_metrics at hm
  rw [hlast, hinfo] at hm
  simp only [Option.some_bind, Option.some.injEq] at hm
  subst hm
  refine ⟨rfl, rfl, ?_, ?_, ?_⟩
  · intro h
    simp only [if_pos h]
  · intro h
    simp only [if_neg (not_lt.mpr h)]
  · norm_num [calculate_yield_metrics, fetch_dividend_data_from_web, PREFERRED_STOCKS,
      strcEntry, strc, List.find?]

theorem C1_witness :
    strcM25.current_price = (⟨0, 25⟩ : PricePoint).close
      ∧ strcM25.annual_dividend = strcEntry.par * (strcEntry.current_rate / 100)
      ∧ ((⟨0, 25⟩ : PricePoint).close > 0 →
          strcM25.current_yield
            = strcEntry.par * (strcEntry.current_rate / 100) / (⟨0, 25⟩ : PricePoint).close * 100)
      ∧ ((⟨0, 25⟩ : PricePoint).close ≤ 0 → strcM25.current_yield = 0)
      ∧ (calculate_yield_metrics [⟨0, 25⟩] strc).map
          (fun mm => (mm.annual_dividend, mm.current_yield)) = some (10, 40) :=
  C1_current_yield_formula [⟨0, 25⟩] ⟨0, 25⟩ strc strcEntry strcM25 rfl rfl
    (by norm_num [calculate_yield_metrics, fetch_dividend_data_from_web, PREFERRED_STOCKS,
      strcEntry, strcM25, strc, List.find?])

/-- Claim C4 counterexample: for the non-empty series [25] and the symbol ZZZZ absent
from the table, calculate_yield_metrics returns none (no metrics record at
all), not a record with current_yield 0 built from default rate 0 and par 100. -/
theorem C4_counterexample :
    ([⟨0, 25⟩] : List PricePoint) ≠ []
      ∧ fetch_dividend_data_from_web zzzz = none
      ∧ calculate_yield_metrics [⟨0, 25⟩] zzzz = none := by
  refine ⟨by simp, by decide, by decide⟩

/-- Claim C4 as amended: a symbol absent from the reference table makes
calculate_yield_metrics return none for every price series, because the empty
dict returned by the lookup is falsy; the rate-0 / par-100 defaults are never
reached on this path. -/
theorem C4_absent_symbol_none (series : List PricePoint) (symbol : String)
    (habs : fetch_dividend_data_from_web symbol = none) :
    calculate_yield_metrics series symbol = none := by
  unfold calculate_yield_metrics
  rw [habs]
  cases series.getLast? <;> rfl

theorem C4_witness : calculate_yield_metrics [⟨0, 25⟩] zzzz = none :=
  C4_absent_symbol_none [⟨0, 25⟩] zzzz (by decide)

/-- Claim C7: the empty price series produces no metrics record from
calculate_yield_metrics and the empty sequence from
calculate_historical_yields, for every symbol. -/
theorem C7_empty_series (symbol : String) :
    calculate_yield_metrics [] symbol = none
      ∧ calculate_historical_yields [] symbol = [] :=
  ⟨rfl, rfl⟩

/-- Claim C2: an alert is emitted for a schedule exactly when the day difference to
its next ex-dividend date lies in the closed window [0, 7]; the boundaries
today, today + 7 (alert) and today + 8 (no alert) behave as stated. -/
theorem C2_alert_window (today : Int) (stocks : List (String × DividendInfo))
    (s : String) (info : DividendInfo) (hmem : (s, info) ∈ stocks) :
    ((∃ a ∈ check_upcoming_ex_div_dates_over today stocks,
        a.symbol = s ∧ a.days_until = info.next_ex_div - today)
      ↔ 0 ≤ info.next_ex_div - today ∧ info.next_ex_div - today ≤ 7)
    ∧ (info.next_ex_div = today →
        ∃ a ∈ check_upcoming_ex_div_dates_over today stocks,
          a.symbol = s ∧ a.days_until = 0)
    ∧ (info.next_ex_div = today + 7 →
        ∃ a ∈ check_upcoming_ex_div_dates_over today stocks,
          a.symbol = s ∧ a.days_until = 7)
    ∧ (info.next_ex_div = today + 8 →
        ¬ ∃ a ∈ check_upcoming_ex_div_dates_over today stocks,
            a.symbol = s ∧ a.days_until = info.next_ex_div - today) := by
  have hiff : (∃ a ∈ check_upcoming_ex_div_dates_over today stocks,
        a.symbol = s ∧ a.days_until = info.next_ex_div - today)
      ↔ 0 ≤ info.next_ex_div - today ∧ info.next_ex_div - today ≤ 7 := by
    constructor
    · rintro ⟨a, ha, hsym, hd⟩
      unfold check_upcoming_ex_div_dates_over at ha
      rw [List.mem_filterMap] at ha
      obtain ⟨si, hsi, hf⟩ := ha
      dsimp only at hf
      by_cases hc : 0 ≤ si.2.next_ex_div - today ∧ si.2.next_ex_div - today ≤ 7
      · rw [if_pos hc] at hf
        injection hf with hf
        subst hf
        dsimp only at hd
        omega
      · rw [if_neg hc] at hf
        exact Option.noConfusion hf
    · rintro ⟨h0, h7⟩
      refine ⟨⟨s, info.next_ex_div, info.next_ex_div - today, info.quarterly_dividend⟩,
        ?_, rfl, rfl⟩
      unfold check_upcoming_ex_div_dates_over
      rw [List.mem_filterMap]
      refine ⟨(s, info), hmem, ?_⟩
      dsimp only
      rw [if_pos ⟨h0, h7⟩]
  refine ⟨hiff, ?_, ?_, ?_⟩
  · intro h
    obtain ⟨a, ha, hs, hd⟩ := hiff.mpr ⟨by omega, by omega⟩
    exact ⟨a, ha, hs, by omega⟩
  · intro h
    obtain ⟨a, ha, hs, hd⟩ := hiff.mpr ⟨by omega, by omega⟩
    exact ⟨a, ha, hs, by omega⟩
  · intro h hex
    obtain ⟨hlo, hhi⟩ := hiff.mp hex
    omega

theorem C2_witness :
    ∃ a ∈ check_upcoming_ex_div_dates_over 0 [(symA, demoEntry 0)],
      a.symbol = symA ∧ a.days_until = 0 :=
  (C2_alert_window 0 [(symA, demoEntry 0)] symA (demoEntry 0)
    (List.mem_singleton.mpr rfl)).2.1 rfl

/-- Claim C3: for a symbol in the table, the historical-yield output is exactly the
nonzero-close points mapped to annual dividend over close times 100, in input
order, and its length is the input length minus the number of zero-close
points. -/
theorem C3_historical_filter (series : List PricePoint) (symbol : String)
    (info : DividendInfo) (hinfo : fetch_dividend_data_from_web symbol = some info) :
    calculate_historical_yields series symbol
        = (series.filter fun p => decide (p.close ≠ 0)).map
            (fun p => (p.ts, info.par * (info.current_rate / 100) / p.close * 100))
      ∧ (calculate_historical_yields series symbol).length
          = series.length - (series.filter fun p => decide (p.close = 0)).length := by
  have hmain := hist_eq_filter_map series symbol info hinfo
  refine ⟨hmain, ?_⟩
  rw [hmain, List.length_map, filter_zero_length]

theorem C3_witness :
    calculate_historical_yields c3demo strc
        = (c3demo.filter fun p => decide (p.close ≠ 0)).map
            (fun p => (p.ts, strcEntry.par * (strcEntry.current_rate / 100) / p.close * 100))
      ∧ (calculate_historical_yields c3demo strc).length
          = c3demo.length - (c3demo.filter fun p => decide (p.close = 0)).length :=
  C3_historical_filter c3demo strc strcEntry rfl

/-- Claim C5 counterexample: the record returned by calculate_yield_metrics carries
exactly the six source dict keys, and no premium-or-discount field is among
them, even on an input where a record is returned. -/
theorem C5_counterexample :
    (calculate_yield_metrics [⟨0, 25⟩] strc).isSome = true
      ∧ yieldMetricsFields
          = ["current_price", "current_yield", "yield_to_par", "annual_dividend",
             "par_value", "dividend_info"]
      ∧ "premiumOrDiscountPct" ∉ yieldMetricsFields
      ∧ "premium_or_discount_pct" ∉ yieldMetricsFields :=
  ⟨rfl, rfl, by decide, by decide⟩

/-- Claim C5 as amended: the returned record has no premium-or-discount field; the
dashboard caller computes it from the record as
(current_price / par_value - 1) * 100, which equals
(last close / schedule par - 1) * 100. -/
theorem C5_premium_caller (series : List PricePoint) (p : PricePoint)
    (symbol : String) (info : DividendInfo) (m : YieldMetrics)
    (hlast : series.getLast? = some p)
    (hinfo : fetch_dividend_data_from_web symbol = some info)
    (hm : calculate_yield_metrics series symbol = some m) :
    "premiumOrDiscountPct" ∉ yieldMetricsFields
      ∧ premium_discount_pct m = (p.close / info.par - 1) * 100 := by
  refine ⟨by decide, ?_⟩
  unfold calculate_yield_metrics at hm
  rw [hlast, hinfo] at hm
  simp only [Option.some_bind, Option.some.injEq] at hm
  subst hm
  rfl

theorem C5_witness :
    "premiumOrDiscountPct" ∉ yieldMetricsFields
      ∧ premium_discount_pct strcM25
          = ((⟨0, 25⟩ : PricePoint).close / strcEntry.par - 1) * 100 :=
  C5_premium_caller [⟨0, 25⟩] ⟨0, 25⟩ strc strcEntry strcM25 rfl rfl
    (by norm_num [calculate_yield_metrics, fetch_dividend_data_from_web, PREFERRED_STOCKS,
      strcEntry, strcM25, strc, List.find?])

/-- Claim C6 counterexample: a point with the negative close -5 is not excluded:
with the STRC schedule it yields the kept output value -200. -/
theorem C6_counterexample :
    calculate_historical_yields [⟨0, -5⟩] strc = [(0, -200)]
      ∧ calculate_historical_yields [⟨0, -5⟩] strc ≠ [] := by
  have h : calculate_historical_yields [⟨0, -5⟩] strc = [(0, -200)] := by
    norm_num [calculate_historical_yields, fetch_dividend_data_from_web, PREFERRED_STOCKS,
      strcEntry, strc, List.find?, raw_yields, replace_inf_dropna, pdDiv, pdMul100,
      List.filterMap_cons]
  refine ⟨h, ?_⟩
  rw [h]
  simp

/-- Claim C6 as amended: only zero-close points are excluded from the historical
yield output; a negative-close point is kept, contributing its finite
(negative) yield. -/
theorem C6_zero_only_excluded (series : List PricePoint) (symbol : String)
    (info : DividendInfo) (hinfo : fetch_dividend_data_from_web symbol = some info) :
    (∀ q ∈ calculate_historical_yields series symbol,
        ∃ p ∈ series, p.close ≠ 0
          ∧ q = (p.ts, info.par * (info.current_rate / 100) / p.close * 100))
      ∧ (∀ p ∈ series, p.close < 0 →
          (p.ts, info.par * (info.current_rate / 100) / p.close * 100)
            ∈ calculate_historical_yields series symbol) := by
  have hm := hist_eq_filter_map series symbol info hinfo
  constructor
  · intro q hq
    rw [hm, List.mem_map] at hq
    obtain ⟨p, hp, hq⟩ := hq
    rw [List.mem_filter] at hp
    exact ⟨p, hp.1, by simpa using hp.2, hq.symm⟩
  · intro p hp hneg
    rw [hm, List.mem_map]
    exact ⟨p, List.mem_filter.mpr ⟨hp, by simp [hneg.ne]⟩, rfl⟩

theorem C6_witness :
    ((⟨0, -5⟩ : PricePoint).ts,
        strcEntry.par * (strcEntry.current_rate / 100) / (⟨0, -5⟩ : PricePoint).close * 100)
      ∈ calculate_historical_yields [⟨0, -5⟩] strc :=
  (C6_zero_only_excluded [⟨0, -5⟩] strc strcEntry rfl).2 ⟨0, -5⟩
    (List.mem_singleton.mpr rfl) (by norm_num)

/-- Claim C8: alerts are produced in the insertion order of the schedule table (the
alert symbols form a sublist of the table keys in order), and the output is
not resorted by urgency: a table whose first entry is 7 days out and whose
second is due today yields the days-until sequence [7, 0]. -/
theorem C8_insertion_order :
    (∀ (today : Int) (stocks : List (String × DividendInfo)),
        ((check_upcoming_ex_div_dates_over today stocks).map AlertInfo.symbol).Sublist
          (stocks.map Prod.fst))
    ∧ ((check_upcoming_ex_div_dates_over 0
          [(symA, demoEntry 7), (symB, demoEntry 0)]).map AlertInfo.days_until
        = [7, 0]) := by
  constructor
  · intro today stocks
    unfold check_upcoming_ex_div_dates_over
    apply filterMap_map_sublist
    intro a b hab
    dsimp only at hab
    by_cases hc : 0 ≤ a.2.next_ex_div - today ∧ a.2.next_ex_div - today ≤ 7
    · rw [if_pos hc] at hab
      injection hab with hab
      rw [← hab]
    · rw [if_neg hc] at hab
      exact Option.noConfusion hab
  · rfl

/-- Claim C10: every value in the historical-yield pipeline output is a genuine
rational produced by a division with nonzero denominator — the infinite and
undefined values the pandas pipeline can create are all removed — and with a
zero annual dividend every surviving value is 0. -/
theorem C10_no_nonfinite (d : Rat) (series : List PricePoint) :
    (∀ q ∈ replace_inf_dropna (raw_yields d series),
        ∃ p ∈ series, p.close ≠ 0 ∧ q = (p.ts, d / p.close * 100))
      ∧ (∀ q ∈ replace_inf_dropna (raw_yields 0 series), q.2 = 0) := by
  constructor
  · intro q hq
    rw [replace_raw_eq, List.mem_map] at hq
    obtain ⟨p, hp, hq⟩ := hq
    rw [List.mem_filter] at hp
    exact ⟨p, hp.1, by simpa using hp.2, hq.symm⟩
  · intro q hq
    rw [replace_raw_eq, List.mem_map] at hq
    obtain ⟨p, hp, hq⟩ := hq
    rw [← hq]
    simp

theorem C10_witness :
    (∃ p ∈ ([⟨0, 0⟩, ⟨1, 5⟩] : List PricePoint), p.close ≠ 0
        ∧ ((1 : Nat), (200 : Rat)) = (p.ts, 10 / p.close * 100))
      ∧ (∀ q ∈ replace_inf_dropna (raw_yields 0 ([⟨1, 5⟩] : List PricePoint)), q.2 = 0) :=
  ⟨(C10_no_nonfinite 10 [⟨0, 0⟩, ⟨1, 5⟩]).1 (1, 200)
      (by norm_num [raw_yields, replace_inf_dropna, pdDiv, pdMul100, List.filterMap_cons]),
    (C10_no_nonfinite 0 [⟨1, 5⟩]).2⟩
